import Mathlib

/-!
Shallow embedding of the upload handler `upload_to_input_dir` from
`lightrag/api/routers/document_routes.py`.

The handler is modelled as a pure function over:
  - an environment `Env` of external collaborators (sanitizer, extension
    check, document-status store, track-id generator, the JSON codec of
    the standard library, and a per-path write-failure oracle modelling
    filesystem errors raised by `open(...)`);
  - an initial filesystem `Fs`, an association list from path to content
    (file content is abstracted as a `String` of bytes);
  - the request: declared filename, uploaded byte stream, optional
    metadata form field.

It returns the HTTP-level outcome, `Except (Nat × String) InsertResponse`
(the pair is status code and `detail`), together with a trace of observable
effects (`Event`): store queries, filesystem existence checks, filesystem
writes, and background-task scheduling.  Path joining by `pathlib`
(`doc_manager.input_dir / safe_filename`) is modelled as string
concatenation with a slash, which agrees with `pathlib` whenever the
joined name is relative and contains no separator.

The Python `try ... except Exception` wrapper catches every exception of
the body, including the deliberately raised `HTTPException(400, ...)`
(FastAPI `HTTPException` is an `Exception` subclass), and re-raises it as
`HTTPException(500, str(e))`; `str` of an `HTTPException` renders as
"code: detail".  This conversion is modelled faithfully by
`upload_to_input_dir` below wrapping `uploadBody`.
-/

/-- JSON values, for the metadata sidecar.  `json.loads` and `json.dump`
of the Python standard library are abstracted as environment functions
over this type. -/
inductive Json where
  | null : Json
  | bool : Bool → Json
  | num : Int → Json
  | str : String → Json
  | arr : List Json → Json
  | obj : List (String × Json) → Json

/-- The Python test `isinstance(parsed_metadata, dict)`. -/
def Json.isObj : Json → Bool
  | Json.obj _ => true
  | _ => false

/-- The response model returned by the handler. -/
structure InsertResponse where
  status : String
  message : String
  track_id : String
deriving DecidableEq, Repr

/-- A record of the document-status store: a Python dict with string
values, as an association list. -/
abbrev DocRecord := List (String × String)

/-- Python `d.get(k, dflt)` on a `DocRecord`. -/
def dictGet (d : DocRecord) (k dflt : String) : String :=
  (List.lookup k d).getD dflt

/-- Exceptions that the body of the handler can raise: the deliberate
`HTTPException(status_code, detail)` and OS-level errors from `open`. -/
inductive Exc where
  | http : Nat → String → Exc
  | os : String → Exc
deriving DecidableEq, Repr

/-- Python `str(e)`: for an `HTTPException` it renders "code: detail",
for an `OSError` the message. -/
def strOfExc : Exc → String
  | Exc.http code detail => toString code ++ ": " ++ detail
  | Exc.os msg => msg

/-- The filesystem: an association list from path to file content; a
write prepends, so `List.lookup` sees the newest version. -/
abbrev Fs := List (String × String)

/-- Content at a path, if any. -/
def fsLookup (fs : Fs) (p : String) : Option String :=
  List.lookup p fs

/-- Python `file_path.exists()`. -/
def fsExists (fs : Fs) (p : String) : Bool :=
  (fsLookup fs p).isSome

/-- Observable effects of the handler, in order of occurrence. -/
inductive Event where
  | storeQuery : String → Event
  | fsExistsCheck : String → Event
  | fsWrite : String → String → Event
  | schedule : String → String → String → String → Event
deriving DecidableEq, Repr

/-- Replay one event against the filesystem. -/
def applyEvent (fs : Fs) : Event → Fs
  | Event.fsWrite p c => (p, c) :: fs
  | _ => fs

/-- Replay a trace against the filesystem. -/
def applyEvents (fs : Fs) (evs : List Event) : Fs :=
  evs.foldl applyEvent fs

/-- Paths the handler touches on the filesystem (existence checks and
writes; store queries are not filesystem accesses). -/
def eventPath : Event → Option String
  | Event.fsExistsCheck p => some p
  | Event.fsWrite p _ => some p
  | _ => none

/-- All filesystem paths accessed along a trace. -/
def accessedPaths (evs : List Event) : List String :=
  evs.filterMap eventPath

/-- The environment of external collaborators the handler depends on. -/
structure Env where
  input_dir : String
  supported_extensions : String
  is_supported_file : String → Bool
  sanitize_filename : String → String → String
  get_doc_by_file_path : String → Option DocRecord
  generate_track_id : String → String
  json_loads : String → Option Json
  json_dumps : Json → Bool → Nat → String
  rag : String
  write_error : String → Option String

/-- The request: declared filename, uploaded bytes, optional metadata. -/
structure UploadRequest where
  filename : String
  content : String
  metadata : Option String
deriving DecidableEq, Repr

/-- f"Unsupported file type. Supported types: ..." -/
def unsupportedMsg (exts : String) : String :=
  "Unsupported file type. Supported types: " ++ exts

/-- Message of the store-duplicate response. -/
def dupStoreMsg (safe stat : String) : String :=
  "File \x27" ++ safe ++ "\x27 already exists in document storage (Status: "
    ++ stat ++ ")."

/-- Message of the filesystem-duplicate response. -/
def dupFsMsg (safe : String) : String :=
  "File \x27" ++ safe ++ "\x27 already exists in the input directory."

/-- Message of the success response. -/
def successMsg (safe : String) : String :=
  "File \x27" ++ safe
    ++ "\x27 uploaded successfully. Processing will continue in background."

/-- `doc_manager.input_dir / safe_filename` for a relative name. -/
def joinPath (dir name : String) : String :=
  dir ++ "/" ++ name

/-- The metadata value that gets dumped: parse, keep JSON objects as-is,
wrap anything else (parse failure or non-dict) under "raw_metadata". -/
def parsedMetadata (env : Env) (m : String) : Json :=
  match env.json_loads m with
  | some j => if j.isObj then j else Json.obj [("raw_metadata", Json.str m)]
  | none => Json.obj [("raw_metadata", Json.str m)]

/-- The `if metadata:` block: for a truthy metadata string, write the
sidecar at `file_path + ".meta.json"` with `json.dump(parsed, meta_file,
ensure_ascii=False, indent=2)`; the `open` for writing may raise. -/
def metadataStep (env : Env) (file_path : String) (metadata : Option String) :
    Except Exc (List Event) :=
  match metadata with
  | none => Except.ok []
  | some m =>
    if m = "" then Except.ok []
    else
      match env.write_error (file_path ++ ".meta.json") with
      | some msg => Except.error (Exc.os msg)
      | none =>
          Except.ok [Event.fsWrite (file_path ++ ".meta.json")
            (env.json_dumps (parsedMetadata env m) false 2)]

/-- The tail of the handler after the main file was saved: generate the
track id, run the metadata block, schedule background indexing, respond. -/
def afterSave (env : Env) (file_path safe_filename : String)
    (metadata : Option String) : Except Exc InsertResponse × List Event :=
  let track_id := env.generate_track_id "upload"
  match metadataStep env file_path metadata with
  | Except.error e => (Except.error e, [])
  | Except.ok mevs =>
      (Except.ok { status := "success", message := successMsg safe_filename,
                   track_id := track_id },
       mevs ++ [Event.schedule "pipeline_index_file" env.rag file_path track_id])

/-- The handler from the filesystem duplicate check on: check existence
at the joined path, early-return the duplicate response, otherwise save
the uploaded content (the `open` may raise) and continue. -/
def afterStoreCheck (env : Env) (fs : Fs) (req : UploadRequest)
    (safe_filename : String) : Except Exc InsertResponse × List Event :=
  let file_path := joinPath env.input_dir safe_filename
  if fsExists fs file_path then
    (Except.ok { status := "duplicated", message := dupFsMsg safe_filename,
                 track_id := "" },
     [Event.fsExistsCheck file_path])
  else
    match env.write_error file_path with
    | some msg => (Except.error (Exc.os msg), [Event.fsExistsCheck file_path])
    | none =>
        let r := afterSave env file_path safe_filename req.metadata
        (r.1, [Event.fsExistsCheck file_path,
               Event.fsWrite file_path req.content] ++ r.2)

/-- The body of the `try` block: sanitize, extension check, store
duplicate check with Python dict truthiness (an empty record is falsy),
then the filesystem phase. -/
def uploadBody (env : Env) (fs : Fs) (req : UploadRequest) :
    Except Exc InsertResponse × List Event :=
  let safe_filename := env.sanitize_filename req.filename env.input_dir
  if env.is_supported_file safe_filename then
    match env.get_doc_by_file_path safe_filename with
    | some d =>
        if d.isEmpty then
          let r := afterStoreCheck env fs req safe_filename
          (r.1, Event.storeQuery safe_filename :: r.2)
        else
          (Except.ok { status := "duplicated",
                       message := dupStoreMsg safe_filename
                         (dictGet d "status" "unknown"),
                       track_id := "" },
           [Event.storeQuery safe_filename])
    | none =>
        let r := afterStoreCheck env fs req safe_filename
        (r.1, Event.storeQuery safe_filename :: r.2)
  else
    (Except.error (Exc.http 400 (unsupportedMsg env.supported_extensions)), [])

/-- The whole endpoint: the catch-all converts every exception `e` of the
body, the deliberate 400 included, into `HTTPException(500, str(e))`. -/
def upload_to_input_dir (env : Env) (fs : Fs) (req : UploadRequest) :
    Except (Nat × String) InsertResponse × List Event :=
  match uploadBody env fs req with
  | (Except.ok r, evs) => (Except.ok r, evs)
  | (Except.error e, evs) => (Except.error (500, strOfExc e), evs)

/-- The sanitized filename of a request. -/
def safeName (env : Env) (req : UploadRequest) : String :=
  env.sanitize_filename req.filename env.input_dir

/-- The storage path of a request. -/
def targetPath (env : Env) (req : UploadRequest) : String :=
  joinPath env.input_dir (safeName env req)

/-- A string free of path separators. -/
def noSlash (s : String) : Bool :=
  s.data.all (fun c => !(c == '/'))

/-! Sample collaborators used by concrete witnesses. -/

/-- A well-behaved environment: every name supported, empty store, no
write failures, identity sanitizer. -/
def baseEnv : Env := {
  input_dir := "inputs",
  supported_extensions := "[.txt]",
  is_supported_file := fun _ => true,
  sanitize_filename := fun n _ => n,
  get_doc_by_file_path := fun _ => none,
  generate_track_id := fun ns => ns ++ "_1",
  json_loads := fun _ => none,
  json_dumps := fun _ _ _ => "DUMP",
  rag := "rag",
  write_error := fun _ => none }

/-- A plain request with no metadata. -/
def reqTxt : UploadRequest :=
  { filename := "a.txt", content := "BYTES", metadata := none }

/-- A request carrying a metadata form field. -/
def reqMeta : UploadRequest :=
  { filename := "a.txt", content := "BYTES", metadata := some "x" }

/-! Helper lemmas shared by several claims. -/

/-- The wrapper keeps the trace of the body. -/
theorem upload_snd_eq_body_snd (env : Env) (fs : Fs) (req : UploadRequest) :
    (upload_to_input_dir env fs req).2 = (uploadBody env fs req).2 := by
  unfold upload_to_input_dir
  obtain ⟨r, evs⟩ := uploadBody env fs req
  cases r <;> rfl

/-- The catch-all converts any exception of the body into a 500 whose
detail is the Python rendering of the exception. -/
theorem upload_wraps_error (env : Env) (fs : Fs) (req : UploadRequest)
    (e : Exc) (evs : List Event)
    (h : uploadBody env fs req = (Except.error e, evs)) :
    upload_to_input_dir env fs req = (Except.error (500, strOfExc e), evs) := by
  unfold upload_to_input_dir
  rw [h]

/-- A written path is an accessed path. -/
theorem mem_accessedPaths_of_fsWrite (p c : String) (evs : List Event)
    (h : Event.fsWrite p c ∈ evs) : p ∈ accessedPaths evs := by
  induction evs with
  | nil => cases h
  | cons ev tl ih =>
      rcases List.mem_cons.mp h with h1 | h1
      · subst h1
        simp [accessedPaths, eventPath]
      · have := ih h1
        cases ev <;> simp [accessedPaths, eventPath] at this ⊢ <;> tauto

/-! Claim C1. -/

/-- Environment whose extension check rejects every name. -/
def envC1 : Env := { baseEnv with is_supported_file := fun _ => false }

/-- Claim C1 (code observation): for an upload whose sanitized name has
an unsupported extension, the handler does NOT keep the 400; the
catch-all converts the deliberate HTTPException(400, ...) into a 500
whose detail is the str() rendering "400: Unsupported file type.
Supported types: ...".  This demonstrates the divergence from the claim,
which asserts the 400 is not converted into a 500. -/
theorem upload_unsupported_converted_to_500 :
    upload_to_input_dir envC1 []
      { filename := "notes.xyz", content := "DATA", metadata := none } =
      (Except.error
        (500, "400: Unsupported file type. Supported types: [.txt]"), []) := rfl

/-! Claim C2. -/

/-- Claim C2: when the document-status store returns a record for the
sanitized name (a record exposes a status field, per the collaborator
contract), the handler returns an InsertResponse with status
"duplicated", empty track_id, a message embedding the record status, and
the trace holds no filesystem access at all, so the filesystem is
unchanged — regardless of what the filesystem holds at the target path. -/
theorem upload_store_duplicate (env : Env) (fs : Fs) (req : UploadRequest)
    (d : DocRecord) (st : String)
    (hsup : env.is_supported_file (safeName env req) = true)
    (hget : env.get_doc_by_file_path (safeName env req) = some d)
    (hst : List.lookup "status" d = some st) :
    upload_to_input_dir env fs req =
      (Except.ok { status := "duplicated",
                   message := dupStoreMsg (safeName env req) st,
                   track_id := "" },
       [Event.storeQuery (safeName env req)])
    ∧ applyEvents fs (upload_to_input_dir env fs req).2 = fs := by
  have hne : d.isEmpty = false := by
    cases d with
    | nil => simp [List.lookup] at hst
    | cons a l => rfl
  simp only [safeName] at hsup hget
  have h1 : upload_to_input_dir env fs req =
      (Except.ok { status := "duplicated",
                   message := dupStoreMsg (safeName env req) st,
                   track_id := "" },
       [Event.storeQuery (safeName env req)]) := by
    simp [upload_to_input_dir, uploadBody, hsup, hget, hne, dictGet, hst,
      safeName]
  refine ⟨h1, ?_⟩
  rw [h1]
  rfl

/-- Store that reports every path as already processed. -/
def envC2 : Env := { baseEnv with
  get_doc_by_file_path := fun _ => some [("status", "processed")] }

/-- Witness for C2 at a concrete input. -/
theorem upload_store_duplicate_w :
    envC2.is_supported_file (safeName envC2 reqTxt) = true
    ∧ envC2.get_doc_by_file_path (safeName envC2 reqTxt)
        = some [("status", "processed")]
    ∧ List.lookup "status" [("status", "processed")] = some "processed"
    ∧ (upload_to_input_dir envC2 [("inputs/a.txt", "OLD")] reqTxt =
        (Except.ok { status := "duplicated",
                     message := dupStoreMsg (safeName envC2 reqTxt) "processed",
                     track_id := "" },
         [Event.storeQuery (safeName envC2 reqTxt)])
       ∧ applyEvents [("inputs/a.txt", "OLD")]
           (upload_to_input_dir envC2 [("inputs/a.txt", "OLD")] reqTxt).2
           = [("inputs/a.txt", "OLD")]) :=
  ⟨rfl, rfl, rfl,
   upload_store_duplicate envC2 [("inputs/a.txt", "OLD")] reqTxt
     [("status", "processed")] "processed" rfl rfl rfl⟩

/-! Claim C7. -/

/-- Claim C7: for an upload whose sanitized name is not a supported file
type, the handler produces the unsupported-type error with an empty
trace: no filesystem path is accessed and no write of any kind happens,
so the filesystem is unchanged. -/
theorem upload_unsupported_no_write (env : Env) (fs : Fs) (req : UploadRequest)
    (hsup : env.is_supported_file (safeName env req) = false) :
    upload_to_input_dir env fs req =
      (Except.error (500, "400: " ++ unsupportedMsg env.supported_extensions),
       [])
    ∧ accessedPaths (upload_to_input_dir env fs req).2 = []
    ∧ applyEvents fs (upload_to_input_dir env fs req).2 = fs := by
  simp only [safeName] at hsup
  have hs : strOfExc (Exc.http 400 (unsupportedMsg env.supported_extensions))
      = "400: " ++ unsupportedMsg env.supported_extensions := rfl
  have h1 : upload_to_input_dir env fs req =
      (Except.error (500, "400: " ++ unsupportedMsg env.supported_extensions),
       []) := by
    rw [← hs]
    simp [upload_to_input_dir, uploadBody, hsup]
  refine ⟨h1, ?_, ?_⟩ <;> rw [h1] <;> rfl

/-- Witness for C7 at a concrete input. -/
theorem upload_unsupported_no_write_w :
    envC1.is_supported_file (safeName envC1 reqTxt) = false
    ∧ (upload_to_input_dir envC1 [] reqTxt =
        (Except.error
          (500, "400: " ++ unsupportedMsg envC1.supported_extensions), [])
       ∧ accessedPaths (upload_to_input_dir envC1 [] reqTxt).2 = []
       ∧ applyEvents [] (upload_to_input_dir envC1 [] reqTxt).2 = []) :=
  ⟨rfl, upload_unsupported_no_write envC1 [] reqTxt rfl⟩

/-! Claim C3. -/

/-- Claim C3: when no document-status record exists but a file already
occupies the target path, the handler returns the filesystem-duplicate
response with empty track_id, the trace holds no write, and the content
stored at the target path is untouched. -/
theorem upload_fs_duplicate (env : Env) (fs : Fs) (req : UploadRequest)
    (hsup : env.is_supported_file (safeName env req) = true)
    (hget : env.get_doc_by_file_path (safeName env req) = none)
    (hex : fsExists fs (targetPath env req) = true) :
    upload_to_input_dir env fs req =
      (Except.ok { status := "duplicated",
                   message := dupFsMsg (safeName env req), track_id := "" },
       [Event.storeQuery (safeName env req),
        Event.fsExistsCheck (targetPath env req)])
    ∧ applyEvents fs (upload_to_input_dir env fs req).2 = fs
    ∧ fsLookup (applyEvents fs (upload_to_input_dir env fs req).2)
        (targetPath env req) = fsLookup fs (targetPath env req) := by
  simp only [safeName, targetPath] at hsup hget hex
  have h1 : upload_to_input_dir env fs req =
      (Except.ok { status := "duplicated",
                   message := dupFsMsg (safeName env req), track_id := "" },
       [Event.storeQuery (safeName env req),
        Event.fsExistsCheck (targetPath env req)]) := by
    simp [upload_to_input_dir, uploadBody, afterStoreCheck, hsup, hget, hex,
      safeName, targetPath]
  refine ⟨h1, ?_, ?_⟩ <;> rw [h1] <;> rfl

/-- Witness for C3 at a concrete input: the target path already holds
content "OLD", which survives unchanged. -/
theorem upload_fs_duplicate_w :
    baseEnv.is_supported_file (safeName baseEnv reqTxt) = true
    ∧ baseEnv.get_doc_by_file_path (safeName baseEnv reqTxt) = none
    ∧ fsExists [("inputs/a.txt", "OLD")] (targetPath baseEnv reqTxt) = true
    ∧ (upload_to_input_dir baseEnv [("inputs/a.txt", "OLD")] reqTxt =
        (Except.ok { status := "duplicated",
                     message := dupFsMsg (safeName baseEnv reqTxt),
                     track_id := "" },
         [Event.storeQuery (safeName baseEnv reqTxt),
          Event.fsExistsCheck (targetPath baseEnv reqTxt)])
       ∧ applyEvents [("inputs/a.txt", "OLD")]
           (upload_to_input_dir baseEnv [("inputs/a.txt", "OLD")] reqTxt).2
           = [("inputs/a.txt", "OLD")]
       ∧ fsLookup (applyEvents [("inputs/a.txt", "OLD")]
             (upload_to_input_dir baseEnv [("inputs/a.txt", "OLD")] reqTxt).2)
           (targetPath baseEnv reqTxt)
         = fsLookup [("inputs/a.txt", "OLD")] (targetPath baseEnv reqTxt)) :=
  ⟨rfl, rfl, rfl,
   upload_fs_duplicate baseEnv [("inputs/a.txt", "OLD")] reqTxt rfl rfl rfl⟩

/-! Claim C4. -/

/-- Claim C4: an exception after the main file was saved — here a failing
sidecar write — yields a 500 response carrying exactly the exception
message; no cleanup happens: the main file stays on disk with the
uploaded content, the sidecar path is untouched.  The last conjunct is
the general catch-all fact: every exception of the body, wherever raised,
becomes a 500 whose detail is the Python rendering of the exception. -/
theorem upload_sidecar_write_failure (env : Env) (fs : Fs)
    (req : UploadRequest) (m msg : String)
    (hsup : env.is_supported_file (safeName env req) = true)
    (hget : env.get_doc_by_file_path (safeName env req) = none)
    (hex : fsExists fs (targetPath env req) = false)
    (hwf : env.write_error (targetPath env req) = none)
    (hm : req.metadata = some m)
    (hm2 : ¬ m = "")
    (hwm : env.write_error (targetPath env req ++ ".meta.json") = some msg) :
    upload_to_input_dir env fs req =
      (Except.error (500, msg),
       [Event.storeQuery (safeName env req),
        Event.fsExistsCheck (targetPath env req),
        Event.fsWrite (targetPath env req) req.content])
    ∧ fsLookup (applyEvents fs (upload_to_input_dir env fs req).2)
        (targetPath env req) = some req.content
    ∧ fsLookup (applyEvents fs (upload_to_input_dir env fs req).2)
        (targetPath env req ++ ".meta.json")
      = fsLookup fs (targetPath env req ++ ".meta.json")
    ∧ (∀ e evs, uploadBody env fs req = (Except.error e, evs) →
        upload_to_input_dir env fs req = (Except.error (500, strOfExc e), evs)) := by
  have hne : targetPath env req ++ ".meta.json" ≠ targetPath env req := by
    intro h
    have hlen := congrArg String.length h
    rw [String.length_append] at hlen
    have h10 : (".meta.json" : String).length = 10 := rfl
    rw [h10] at hlen
    omega
  simp only [safeName, targetPath] at hsup hget hex hwf hwm
  have h1 : upload_to_input_dir env fs req =
      (Except.error (500, msg),
       [Event.storeQuery (safeName env req),
        Event.fsExistsCheck (targetPath env req),
        Event.fsWrite (targetPath env req) req.content]) := by
    simp [upload_to_input_dir, uploadBody, afterStoreCheck, afterSave,
      metadataStep, hsup, hget, hex, hwf, hm, hm2, hwm, safeName, targetPath,
      strOfExc]
  refine ⟨h1, ?_, ?_, ?_⟩
  · rw [h1]
    simp [applyEvents, applyEvent, fsLookup, List.lookup]
  · rw [h1]
    have hb : ((targetPath env req ++ ".meta.json") == targetPath env req)
        = false := beq_eq_false_iff_ne.mpr hne
    simp [applyEvents, applyEvent, fsLookup, List.lookup, hb]
  · intro e evs h
    exact upload_wraps_error env fs req e evs h

/-- Environment in which only the sidecar path fails to open. -/
def envC4 : Env := { baseEnv with
  write_error := fun p =>
    if p = "inputs/a.txt.meta.json" then some "disk full" else none }

/-- Witness for C4 at a concrete input. -/
theorem upload_sidecar_write_failure_w :
    envC4.is_supported_file (safeName envC4 reqMeta) = true
    ∧ envC4.get_doc_by_file_path (safeName envC4 reqMeta) = none
    ∧ fsExists [] (targetPath envC4 reqMeta) = false
    ∧ envC4.write_error (targetPath envC4 reqMeta) = none
    ∧ reqMeta.metadata = some "x"
    ∧ ¬ "x" = ""
    ∧ envC4.write_error (targetPath envC4 reqMeta ++ ".meta.json")
        = some "disk full"
    ∧ (upload_to_input_dir envC4 [] reqMeta =
        (Except.error (500, "disk full"),
         [Event.storeQuery (safeName envC4 reqMeta),
          Event.fsExistsCheck (targetPath envC4 reqMeta),
          Event.fsWrite (targetPath envC4 reqMeta) reqMeta.content])
       ∧ fsLookup (applyEvents [] (upload_to_input_dir envC4 [] reqMeta).2)
           (targetPath envC4 reqMeta) = some reqMeta.content
       ∧ fsLookup (applyEvents [] (upload_to_input_dir envC4 [] reqMeta).2)
           (targetPath envC4 reqMeta ++ ".meta.json")
         = fsLookup [] (targetPath envC4 reqMeta ++ ".meta.json")
       ∧ (∀ e evs, uploadBody envC4 [] reqMeta = (Except.error e, evs) →
           upload_to_input_dir envC4 [] reqMeta
             = (Except.error (500, strOfExc e), evs))) :=
  ⟨by decide, rfl, rfl, by decide, rfl, by decide, by decide,
   upload_sidecar_write_failure envC4 [] reqMeta "x" "disk full"
     (by decide) rfl rfl (by decide) rfl (by decide) (by decide)⟩

/-! Claim C9. -/

/-- Store that returns the empty record for every path. -/
def envC9 : Env := { baseEnv with get_doc_by_file_path := fun _ => some [] }

/-- Counterexample to C9 as stated: the store returns a record with no
status field — the empty record — yet no duplicate response is produced.
Python dict truthiness makes the empty record falsy, so the duplicate
branch is skipped and the upload proceeds to a success response. -/
theorem upload_empty_record_skips_duplicate :
    envC9.get_doc_by_file_path (safeName envC9 reqTxt) = some []
    ∧ List.lookup "status" ([] : DocRecord) = none
    ∧ (upload_to_input_dir envC9 [] reqTxt).1 =
        Except.ok { status := "success", message := successMsg "a.txt",
                    track_id := "upload_1" }
    ∧ (upload_to_input_dir envC9 [] reqTxt).1 ≠
        Except.ok { status := "duplicated",
                    message := dupStoreMsg "a.txt" "unknown",
                    track_id := "" } := by
  refine ⟨rfl, rfl, rfl, ?_⟩
  intro h
  have h1 : (upload_to_input_dir envC9 [] reqTxt).1 =
      Except.ok { status := "success", message := successMsg "a.txt",
                  track_id := "upload_1" } := rfl
  rw [h1] at h
  have h2 := Except.ok.inj h
  have h3 := congrArg InsertResponse.status h2
  exact absurd h3 (by decide)

/-- Claim C9 amended: when the store returns a NON-EMPTY record lacking a
status field, the duplicate response is still produced successfully with
the placeholder "unknown" in place of the record status; the missing
field never causes an error.  (The empty record is excluded: being falsy
in Python, it skips the duplicate branch entirely.) -/
theorem upload_record_without_status (env : Env) (fs : Fs)
    (req : UploadRequest) (d : DocRecord)
    (hsup : env.is_supported_file (safeName env req) = true)
    (hget : env.get_doc_by_file_path (safeName env req) = some d)
    (hd : d.isEmpty = false)
    (hst : List.lookup "status" d = none) :
    upload_to_input_dir env fs req =
      (Except.ok { status := "duplicated",
                   message := dupStoreMsg (safeName env req) "unknown",
                   track_id := "" },
       [Event.storeQuery (safeName env req)]) := by
  simp only [safeName] at hsup hget
  simp [upload_to_input_dir, uploadBody, hsup, hget, hd, dictGet, hst,
    safeName]

/-- Store that returns a non-empty record with no status field. -/
def envC9b : Env := { baseEnv with
  get_doc_by_file_path := fun _ => some [("doc_id", "d1")] }

/-- Witness for the amended C9 at a concrete input. -/
theorem upload_record_without_status_w :
    envC9b.is_supported_file (safeName envC9b reqTxt) = true
    ∧ envC9b.get_doc_by_file_path (safeName envC9b reqTxt)
        = some [("doc_id", "d1")]
    ∧ ([("doc_id", "d1")] : DocRecord).isEmpty = false
    ∧ List.lookup "status" ([("doc_id", "d1")] : DocRecord) = none
    ∧ upload_to_input_dir envC9b [] reqTxt =
        (Except.ok { status := "duplicated",
                     message := dupStoreMsg (safeName envC9b reqTxt) "unknown",
                     track_id := "" },
         [Event.storeQuery (safeName envC9b reqTxt)]) :=
  ⟨rfl, rfl, rfl, by decide,
   upload_record_without_status envC9b [] reqTxt [("doc_id", "d1")]
     rfl rfl rfl (by decide)⟩

/-! Claim C5. -/

/-- Claim C5: for an accepted upload with a truthy metadata string, the
sidecar is written at the target path plus ".meta.json" with the dump of
`parsedMetadata` under ensure_ascii=False (non-ASCII preserved) and
indent=2 (pretty-printed); `parsedMetadata` keeps a parsed JSON object
as-is and wraps a parse failure or a non-object under "raw_metadata"; and
the response is still the success response — a parse failure never aborts
the upload (the environment json_loads is arbitrary here). -/
theorem upload_metadata_sidecar (env : Env) (fs : Fs)
    (req : UploadRequest) (m : String)
    (hsup : env.is_supported_file (safeName env req) = true)
    (hget : env.get_doc_by_file_path (safeName env req) = none)
    (hex : fsExists fs (targetPath env req) = false)
    (hwf : env.write_error (targetPath env req) = none)
    (hm : req.metadata = some m)
    (hm2 : ¬ m = "")
    (hwm : env.write_error (targetPath env req ++ ".meta.json") = none) :
    (upload_to_input_dir env fs req).1 =
      Except.ok { status := "success",
                  message := successMsg (safeName env req),
                  track_id := env.generate_track_id "upload" }
    ∧ fsLookup (applyEvents fs (upload_to_input_dir env fs req).2)
        (targetPath env req ++ ".meta.json")
      = some (env.json_dumps (parsedMetadata env m) false 2)
    ∧ (∀ j, env.json_loads m = some j → j.isObj = true →
        parsedMetadata env m = j)
    ∧ (∀ j, env.json_loads m = some j → j.isObj = false →
        parsedMetadata env m = Json.obj [("raw_metadata", Json.str m)])
    ∧ (env.json_loads m = none →
        parsedMetadata env m = Json.obj [("raw_metadata", Json.str m)]) := by
  simp only [safeName, targetPath] at hsup hget hex hwf hwm
  have h1 : upload_to_input_dir env fs req =
      (Except.ok { status := "success",
                   message := successMsg (safeName env req),
                   track_id := env.generate_track_id "upload" },
       [Event.storeQuery (safeName env req),
        Event.fsExistsCheck (targetPath env req),
        Event.fsWrite (targetPath env req) req.content,
        Event.fsWrite (targetPath env req ++ ".meta.json")
          (env.json_dumps (parsedMetadata env m) false 2),
        Event.schedule "pipeline_index_file" env.rag (targetPath env req)
          (env.generate_track_id "upload")]) := by
    simp [upload_to_input_dir, uploadBody, afterStoreCheck, afterSave,
      metadataStep, hsup, hget, hex, hwf, hm, hm2, hwm, safeName, targetPath]
  refine ⟨?_, ?_, ?_, ?_, ?_⟩
  · rw [h1]
  · rw [h1]
    simp [applyEvents, applyEvent, fsLookup, List.lookup]
  · intro j hj hobj
    simp [parsedMetadata, hj, hobj]
  · intro j hj hobj
    simp [parsedMetadata, hj, hobj]
  · intro hj
    simp [parsedMetadata, hj]

/-- Environment whose json_loads parses "x" as a JSON object. -/
def envC5 : Env := { baseEnv with
  json_loads := fun s =>
    if s = "x" then some (Json.obj [("k", Json.str "v")]) else none,
  json_dumps := fun j _ _ =>
    match j with
    | Json.obj [(k, Json.str v)] => "OBJ:" ++ k ++ ":" ++ v
    | _ => "OTHER" }

/-- Witness for C5 at a concrete input. -/
theorem upload_metadata_sidecar_w :
    envC5.is_supported_file (safeName envC5 reqMeta) = true
    ∧ envC5.get_doc_by_file_path (safeName envC5 reqMeta) = none
    ∧ fsExists [] (targetPath envC5 reqMeta) = false
    ∧ envC5.write_error (targetPath envC5 reqMeta) = none
    ∧ reqMeta.metadata = some "x"
    ∧ ¬ "x" = ""
    ∧ envC5.write_error (targetPath envC5 reqMeta ++ ".meta.json") = none
    ∧ ((upload_to_input_dir envC5 [] reqMeta).1 =
        Except.ok { status := "success",
                    message := successMsg (safeName envC5 reqMeta),
                    track_id := envC5.generate_track_id "upload" }
       ∧ fsLookup (applyEvents [] (upload_to_input_dir envC5 [] reqMeta).2)
           (targetPath envC5 reqMeta ++ ".meta.json")
         = some (envC5.json_dumps (parsedMetadata envC5 "x") false 2)
       ∧ (∀ j, envC5.json_loads "x" = some j → j.isObj = true →
           parsedMetadata envC5 "x" = j)
       ∧ (∀ j, envC5.json_loads "x" = some j → j.isObj = false →
           parsedMetadata envC5 "x" = Json.obj [("raw_metadata", Json.str "x")])
       ∧ (envC5.json_loads "x" = none →
           parsedMetadata envC5 "x"
             = Json.obj [("raw_metadata", Json.str "x")])) :=
  ⟨rfl, rfl, rfl, rfl, rfl, by decide, rfl,
   upload_metadata_sidecar envC5 [] reqMeta "x"
     rfl rfl rfl rfl rfl (by decide) rfl⟩

/-- The sidecar path differs from the main path (it is 10 chars longer). -/
theorem meta_json_ne (p : String) : p ++ ".meta.json" ≠ p := by
  intro h
  have hlen := congrArg String.length h
  rw [String.length_append] at hlen
  have h10 : (".meta.json" : String).length = 10 := rfl
  rw [h10] at hlen
  omega

/-! Claim C6. -/

/-- Claim C6: for a valid new upload — supported extension, no store
record, nothing at the target path, no write failures — the uploaded
content is copied verbatim to the target path, the track id is
`generate_track_id "upload"` (non-empty and prefixed "upload" under the
generator contract), the schedule event for pipeline_index_file with
(rag, file_path, track_id) is the LAST trace entry, strictly after the
main-file write which is the third, and the response is the success
response carrying that track id. -/
theorem upload_success_new_file (env : Env) (fs : Fs) (req : UploadRequest)
    (hsup : env.is_supported_file (safeName env req) = true)
    (hget : env.get_doc_by_file_path (safeName env req) = none)
    (hex : fsExists fs (targetPath env req) = false)
    (hwf : env.write_error (targetPath env req) = none)
    (hwm : env.write_error (targetPath env req ++ ".meta.json") = none)
    (hpre : ∃ rest, env.generate_track_id "upload" = "upload" ++ rest) :
    ∃ mevs,
      upload_to_input_dir env fs req =
        (Except.ok { status := "success",
                     message := successMsg (safeName env req),
                     track_id := env.generate_track_id "upload" },
         [Event.storeQuery (safeName env req),
          Event.fsExistsCheck (targetPath env req),
          Event.fsWrite (targetPath env req) req.content]
           ++ mevs
           ++ [Event.schedule "pipeline_index_file" env.rag
                 (targetPath env req) (env.generate_track_id "upload")])
      ∧ fsLookup (applyEvents fs (upload_to_input_dir env fs req).2)
          (targetPath env req) = some req.content
      ∧ env.generate_track_id "upload" ≠ ""
      ∧ (∃ rest, env.generate_track_id "upload" = "upload" ++ rest) := by
  have hb : (targetPath env req == targetPath env req ++ ".meta.json")
      = false :=
    beq_eq_false_iff_ne.mpr (meta_json_ne (targetPath env req)).symm
  obtain ⟨rest, hr⟩ := hpre
  have htid : env.generate_track_id "upload" ≠ "" := by
    intro h0
    rw [h0] at hr
    have hlen := congrArg String.length hr
    rw [String.length_append] at hlen
    have h6 : ("upload" : String).length = 6 := rfl
    have h0' : ("" : String).length = 0 := rfl
    rw [h6, h0'] at hlen
    omega
  simp only [safeName, targetPath] at hsup hget hex hwf hwm
  rcases hm : req.metadata with _ | m
  · have h1 : upload_to_input_dir env fs req =
        (Except.ok { status := "success",
                     message := successMsg (safeName env req),
                     track_id := env.generate_track_id "upload" },
         [Event.storeQuery (safeName env req),
          Event.fsExistsCheck (targetPath env req),
          Event.fsWrite (targetPath env req) req.content,
          Event.schedule "pipeline_index_file" env.rag
            (targetPath env req) (env.generate_track_id "upload")]) := by
      simp [upload_to_input_dir, uploadBody, afterStoreCheck, afterSave,
        metadataStep, hsup, hget, hex, hwf, hm, safeName, targetPath]
    refine ⟨[], ?_, ?_, htid, rest, hr⟩
    · rw [h1]
      simp
    · rw [h1]
      simp [applyEvents, applyEvent, fsLookup, List.lookup]
  · by_cases hm2 : m = ""
    · have h1 : upload_to_input_dir env fs req =
          (Except.ok { status := "success",
                       message := successMsg (safeName env req),
                       track_id := env.generate_track_id "upload" },
           [Event.storeQuery (safeName env req),
            Event.fsExistsCheck (targetPath env req),
            Event.fsWrite (targetPath env req) req.content,
            Event.schedule "pipeline_index_file" env.rag
              (targetPath env req) (env.generate_track_id "upload")]) := by
        simp [upload_to_input_dir, uploadBody, afterStoreCheck, afterSave,
          metadataStep, hsup, hget, hex, hwf, hm, hm2, safeName, targetPath]
      refine ⟨[], ?_, ?_, htid, rest, hr⟩
      · rw [h1]
        simp
      · rw [h1]
        simp [applyEvents, applyEvent, fsLookup, List.lookup]
    · have h1 : upload_to_input_dir env fs req =
          (Except.ok { status := "success",
                       message := successMsg (safeName env req),
                       track_id := env.generate_track_id "upload" },
           [Event.storeQuery (safeName env req),
            Event.fsExistsCheck (targetPath env req),
            Event.fsWrite (targetPath env req) req.content,
            Event.fsWrite (targetPath env req ++ ".meta.json")
              (env.json_dumps (parsedMetadata env m) false 2),
            Event.schedule "pipeline_index_file" env.rag
              (targetPath env req) (env.generate_track_id "upload")]) := by
        simp [upload_to_input_dir, uploadBody, afterStoreCheck, afterSave,
          metadataStep, hsup, hget, hex, hwf, hwm, hm, hm2, safeName,
          targetPath]
      refine ⟨[Event.fsWrite (targetPath env req ++ ".meta.json")
        (env.json_dumps (parsedMetadata env m) false 2)], ?_, ?_, htid,
        rest, hr⟩
      · rw [h1]
        simp
      · rw [h1]
        simp [applyEvents, applyEvent, fsLookup, List.lookup, hb]

/-- Witness for C6 at a concrete input. -/
theorem upload_success_new_file_w :
    baseEnv.is_supported_file (safeName baseEnv reqTxt) = true
    ∧ baseEnv.get_doc_by_file_path (safeName baseEnv reqTxt) = none
    ∧ fsExists [] (targetPath baseEnv reqTxt) = false
    ∧ baseEnv.write_error (targetPath baseEnv reqTxt) = none
    ∧ baseEnv.write_error (targetPath baseEnv reqTxt ++ ".meta.json") = none
    ∧ (∃ rest, baseEnv.generate_track_id "upload" = "upload" ++ rest)
    ∧ (∃ mevs,
        upload_to_input_dir baseEnv [] reqTxt =
          (Except.ok { status := "success",
                       message := successMsg (safeName baseEnv reqTxt),
                       track_id := baseEnv.generate_track_id "upload" },
           [Event.storeQuery (safeName baseEnv reqTxt),
            Event.fsExistsCheck (targetPath baseEnv reqTxt),
            Event.fsWrite (targetPath baseEnv reqTxt) reqTxt.content]
             ++ mevs
             ++ [Event.schedule "pipeline_index_file" baseEnv.rag
                   (targetPath baseEnv reqTxt)
                   (baseEnv.generate_track_id "upload")])
        ∧ fsLookup (applyEvents [] (upload_to_input_dir baseEnv [] reqTxt).2)
            (targetPath baseEnv reqTxt) = some reqTxt.content
        ∧ baseEnv.generate_track_id "upload" ≠ ""
        ∧ (∃ rest, baseEnv.generate_track_id "upload" = "upload" ++ rest)) :=
  ⟨rfl, rfl, rfl, rfl, rfl, ⟨"_1", rfl⟩,
   upload_success_new_file baseEnv [] reqTxt rfl rfl rfl rfl rfl ⟨"_1", rfl⟩⟩

/-! Path accounting, shared by claims C8 and C10. -/

/-- Every filesystem path the post-save tail accesses is the sidecar
path. -/
theorem afterSave_paths (env : Env) (fp sf : String) (md : Option String) :
    ∀ p ∈ accessedPaths (afterSave env fp sf md).2, p = fp ++ ".meta.json" := by
  rcases md with _ | m
  · simp [afterSave, metadataStep, accessedPaths, eventPath]
  · by_cases hm : m = ""
    · simp [afterSave, metadataStep, hm, accessedPaths, eventPath]
    · rcases hw : env.write_error (fp ++ ".meta.json") with _ | msg
      · simp [afterSave, metadataStep, hm, hw, accessedPaths, eventPath]
      · simp [afterSave, metadataStep, hm, hw, accessedPaths, eventPath]

/-- Every filesystem path accessed from the filesystem duplicate check on
is the target path or its sidecar path. -/
theorem afterStoreCheck_paths (env : Env) (fs : Fs) (req : UploadRequest)
    (sf : String) :
    ∀ p ∈ accessedPaths (afterStoreCheck env fs req sf).2,
      p = joinPath env.input_dir sf
        ∨ p = joinPath env.input_dir sf ++ ".meta.json" := by
  by_cases hex : fsExists fs (joinPath env.input_dir sf) = true
  · simp [afterStoreCheck, hex, accessedPaths, eventPath]
  · have hex' : fsExists fs (joinPath env.input_dir sf) = false := by
      revert hex
      cases fsExists fs (joinPath env.input_dir sf) <;> simp
    rcases hw : env.write_error (joinPath env.input_dir sf) with _ | msg
    · have h2 : (afterStoreCheck env fs req sf).2 =
          [Event.fsExistsCheck (joinPath env.input_dir sf),
           Event.fsWrite (joinPath env.input_dir sf) req.content]
            ++ (afterSave env (joinPath env.input_dir sf) sf req.metadata).2 := by
        simp [afterStoreCheck, hex', hw]
      rw [h2]
      intro p hp
      simp only [accessedPaths, List.filterMap_append] at hp
      rcases List.mem_append.mp hp with hp1 | hp1
      · left
        simp [accessedPaths, eventPath] at hp1
        exact hp1
      · right
        exact afterSave_paths env (joinPath env.input_dir sf) sf
          req.metadata p hp1
    · simp [afterStoreCheck, hex', hw, accessedPaths, eventPath]

/-- Every filesystem path the whole handler accesses is the target path
or its sidecar path. -/
theorem uploadBody_paths (env : Env) (fs : Fs) (req : UploadRequest) :
    ∀ p ∈ accessedPaths (uploadBody env fs req).2,
      p = targetPath env req ∨ p = targetPath env req ++ ".meta.json" := by
  by_cases hsup : env.is_supported_file (safeName env req) = true
  · simp only [safeName] at hsup
    rcases hget : env.get_doc_by_file_path
        (env.sanitize_filename req.filename env.input_dir) with _ | d
    · have h2 : (uploadBody env fs req).2 =
          Event.storeQuery (env.sanitize_filename req.filename env.input_dir)
            :: (afterStoreCheck env fs req
                 (env.sanitize_filename req.filename env.input_dir)).2 := by
        simp [uploadBody, hsup, hget]
      rw [h2]
      intro p hp
      simp only [accessedPaths, List.filterMap_cons, eventPath] at hp
      exact afterStoreCheck_paths env fs req
        (env.sanitize_filename req.filename env.input_dir) p hp
    · by_cases hd : d.isEmpty = true
      · have h2 : (uploadBody env fs req).2 =
            Event.storeQuery (env.sanitize_filename req.filename env.input_dir)
              :: (afterStoreCheck env fs req
                   (env.sanitize_filename req.filename env.input_dir)).2 := by
          simp [uploadBody, hsup, hget, hd]
        rw [h2]
        intro p hp
        simp only [accessedPaths, List.filterMap_cons, eventPath] at hp
        exact afterStoreCheck_paths env fs req
          (env.sanitize_filename req.filename env.input_dir) p hp
      · have hd' : d.isEmpty = false := by
          revert hd
          cases d.isEmpty <;> simp
        have h2 : (uploadBody env fs req).2 =
            [Event.storeQuery
              (env.sanitize_filename req.filename env.input_dir)] := by
          simp [uploadBody, hsup, hget, hd']
        rw [h2]
        simp [accessedPaths, eventPath]
  · have hsup' : env.is_supported_file
        (env.sanitize_filename req.filename env.input_dir) = false := by
      simp only [safeName] at hsup
      revert hsup
      cases env.is_supported_file (env.sanitize_filename req.filename env.input_dir)
        <;> simp
    have h2 : (uploadBody env fs req).2 = [] := by
      simp [uploadBody, hsup']
    rw [h2]
    simp [accessedPaths]

/-- Separator-freedom is preserved by appending. -/
theorem noSlash_append (s t : String) (hs : noSlash s = true)
    (ht : noSlash t = true) : noSlash (s ++ t) = true := by
  unfold noSlash at *
  rw [String.data_append, List.all_append, hs, ht]
  rfl

/-! Claim C8. -/

/-- Claim C8: sanitization precedes every filesystem access — every path
the handler tests or writes is the input directory joined with the
sanitized name, or that path plus the ".meta.json" suffix, never a path
built from the raw filename; and assuming the sanitizer returned a
separator-free name, every accessed path is the input directory followed
by a single separator-free component, so it stays inside the directory. -/
theorem upload_paths_from_sanitized (env : Env) (fs : Fs)
    (req : UploadRequest)
    (hsafe : noSlash (safeName env req) = true) :
    ∀ p ∈ accessedPaths (upload_to_input_dir env fs req).2,
      (p = joinPath env.input_dir (safeName env req)
        ∨ p = joinPath env.input_dir (safeName env req) ++ ".meta.json")
      ∧ ∃ n, p = env.input_dir ++ "/" ++ n ∧ noSlash n = true := by
  intro p hp
  rw [upload_snd_eq_body_snd] at hp
  have h1 := uploadBody_paths env fs req p hp
  have h2 : p = joinPath env.input_dir (safeName env req)
      ∨ p = joinPath env.input_dir (safeName env req) ++ ".meta.json" := by
    simpa [targetPath] using h1
  refine ⟨h2, ?_⟩
  rcases h2 with h | h
  · exact ⟨safeName env req, by simpa [joinPath] using h, hsafe⟩
  · refine ⟨safeName env req ++ ".meta.json", ?_, ?_⟩
    · rw [h]
      simp [joinPath, String.append_assoc]
    · exact noSlash_append _ _ hsafe rfl

/-- Witness for C8 at a concrete input. -/
theorem upload_paths_from_sanitized_w :
    noSlash (safeName baseEnv reqMeta) = true
    ∧ (∀ p ∈ accessedPaths (upload_to_input_dir baseEnv [] reqMeta).2,
        (p = joinPath baseEnv.input_dir (safeName baseEnv reqMeta)
          ∨ p = joinPath baseEnv.input_dir (safeName baseEnv reqMeta)
              ++ ".meta.json")
        ∧ ∃ n, p = baseEnv.input_dir ++ "/" ++ n ∧ noSlash n = true) :=
  ⟨rfl, upload_paths_from_sanitized baseEnv [] reqMeta rfl⟩

/-! Claim C10. -/

/-- The filesystem duplicate check is on the trace in every branch. -/
theorem afterStoreCheck_exists_mem (env : Env) (fs : Fs)
    (req : UploadRequest) (sf : String) :
    Event.fsExistsCheck (joinPath env.input_dir sf)
      ∈ (afterStoreCheck env fs req sf).2 := by
  by_cases hex : fsExists fs (joinPath env.input_dir sf) = true
  · simp [afterStoreCheck, hex]
  · have hex' : fsExists fs (joinPath env.input_dir sf) = false := by
      revert hex
      cases fsExists fs (joinPath env.input_dir sf) <;> simp
    rcases hw : env.write_error (joinPath env.input_dir sf) with _ | msg <;>
      simp [afterStoreCheck, hex', hw]

/-- Claim C10: when both duplicate checks run (supported name, no store
record), the store is queried under the BARE sanitized filename while the
filesystem existence check runs under the full joined path; the two keys
are always distinct strings, and every filesystem write also uses the
joined path (or its sidecar extension), never the bare name. -/
theorem upload_distinct_check_keys (env : Env) (fs : Fs)
    (req : UploadRequest)
    (hsup : env.is_supported_file (safeName env req) = true)
    (hget : env.get_doc_by_file_path (safeName env req) = none) :
    Event.storeQuery (safeName env req) ∈ (upload_to_input_dir env fs req).2
    ∧ Event.fsExistsCheck (joinPath env.input_dir (safeName env req))
        ∈ (upload_to_input_dir env fs req).2
    ∧ safeName env req ≠ joinPath env.input_dir (safeName env req)
    ∧ (∀ p c, Event.fsWrite p c ∈ (upload_to_input_dir env fs req).2 →
        p = joinPath env.input_dir (safeName env req)
          ∨ p = joinPath env.input_dir (safeName env req) ++ ".meta.json") := by
  have hne : safeName env req ≠ joinPath env.input_dir (safeName env req) := by
    intro h
    have hlen := congrArg String.length h
    simp only [joinPath, String.length_append] at hlen
    have h1 : ("/" : String).length = 1 := rfl
    rw [h1] at hlen
    omega
  have h2 : (uploadBody env fs req).2 =
      Event.storeQuery (safeName env req)
        :: (afterStoreCheck env fs req (safeName env req)).2 := by
    simp only [safeName] at hsup hget
    simp [uploadBody, hsup, hget, safeName]
  refine ⟨?_, ?_, hne, ?_⟩
  · rw [upload_snd_eq_body_snd, h2]
    exact List.mem_cons_self _ _
  · rw [upload_snd_eq_body_snd, h2]
    exact List.mem_cons_of_mem _ (afterStoreCheck_exists_mem env fs req _)
  · intro p c hmem
    have hp := mem_accessedPaths_of_fsWrite p c _ hmem
    rw [upload_snd_eq_body_snd] at hp
    have h3 := uploadBody_paths env fs req p hp
    simpa [targetPath] using h3

/-- Witness for C10 at a concrete input. -/
theorem upload_distinct_check_keys_w :
    baseEnv.is_supported_file (safeName baseEnv reqTxt) = true
    ∧ baseEnv.get_doc_by_file_path (safeName baseEnv reqTxt) = none
    ∧ (Event.storeQuery (safeName baseEnv reqTxt)
        ∈ (upload_to_input_dir baseEnv [] reqTxt).2
       ∧ Event.fsExistsCheck (joinPath baseEnv.input_dir (safeName baseEnv reqTxt))
           ∈ (upload_to_input_dir baseEnv [] reqTxt).2
       ∧ safeName baseEnv reqTxt
           ≠ joinPath baseEnv.input_dir (safeName baseEnv reqTxt)
       ∧ (∀ p c, Event.fsWrite p c ∈ (upload_to_input_dir baseEnv [] reqTxt).2 →
           p = joinPath baseEnv.input_dir (safeName baseEnv reqTxt)
             ∨ p = joinPath baseEnv.input_dir (safeName baseEnv reqTxt)
                 ++ ".meta.json")) :=
  ⟨rfl, rfl, upload_distinct_check_keys baseEnv [] reqTxt rfl rfl⟩
